import Mathlib

/-!
Verification of the python-adb host-side ADB / filesync / fastboot
implementation.  Byte strings are modelled as `List Nat` (each element a
byte value), machine words as `Nat` with explicit reductions modulo `2^32`
where the source masks, and fallible code as `Option` / `Except`.
-/

namespace PyAdb

/-- Decidable equality on `Except`, so concrete protocol runs can be
checked by `decide`. -/
def exceptDecEq {ε α : Type _} [DecidableEq ε] [DecidableEq α] :
    DecidableEq (Except ε α) := fun x y =>
  match x, y with
  | .ok a, .ok b =>
      if h : a = b then .isTrue (by rw [h])
      else .isFalse (by intro hh; injection hh; exact h (by assumption))
  | .error a, .error b =>
      if h : a = b then .isTrue (by rw [h])
      else .isFalse (by intro hh; injection hh; exact h (by assumption))
  | .ok _, .error _ => .isFalse (by intro hh; exact Except.noConfusion hh)
  | .error _, .ok _ => .isFalse (by intro hh; exact Except.noConfusion hh)

instance {ε α : Type _} [DecidableEq ε] [DecidableEq α] :
    DecidableEq (Except ε α) := exceptDecEq

/-- `MAX_ADB_DATA`: maximum amount of data in an ADB packet. -/
def MAX_ADB_DATA : Nat := 4096

/-- `MAX_PUSH_DATA`: maximum size of a filesync DATA packet. -/
def MAX_PUSH_DATA : Nat := 2 * 1024

/-- Little-endian value of a byte list: `sum (c << (i * 8))`, as computed by
`MakeWireIDs` in `adb_protocol.py` and by `struct.unpack('<I', ...)`. -/
def leNat : List Nat → Nat
  | [] => 0
  | b :: bs => b + 256 * leNat bs

/-- The four little-endian bytes of a 32-bit word, as emitted by
`struct.pack('<I', n)`. -/
def u32le (n : Nat) : List Nat :=
  [n % 256, n / 256 % 256, n / 256 ^ 2 % 256, n / 256 ^ 3 % 256]

/-- Split the first `n` 32-bit little-endian words off a byte list
(`struct.unpack` of an `<nI` format). -/
def words : Nat → List Nat → List Nat
  | 0, _ => []
  | n + 1, bs => leNat (bs.take 4) :: words n (bs.drop 4)

/-- The seven ADB command codes (`AdbMessage.ids`). -/
inductive AdbCmd where
  | SYNC | CNXN | AUTH | OPEN | OKAY | CLSE | WRTE
  deriving DecidableEq, Repr

/-- ASCII bytes of each command id. -/
def AdbCmd.bytes : AdbCmd → List Nat
  | .SYNC => [0x53, 0x59, 0x4E, 0x43]
  | .CNXN => [0x43, 0x4E, 0x58, 0x4E]
  | .AUTH => [0x41, 0x55, 0x54, 0x48]
  | .OPEN => [0x4F, 0x50, 0x45, 0x4E]
  | .OKAY => [0x4F, 0x4B, 0x41, 0x59]
  | .CLSE => [0x43, 0x4C, 0x53, 0x45]
  | .WRTE => [0x57, 0x52, 0x54, 0x45]

/-- `commands` of `MakeWireIDs`: the wire value of a command id. -/
def AdbCmd.toWire (c : AdbCmd) : Nat := leNat c.bytes

/-- `constants` of `MakeWireIDs` as used by `AdbMessage.Read`: look a wire
value up among the seven known commands (`constants.get(cmd)`). -/
def constantsGet (n : Nat) : Option AdbCmd :=
  if n = AdbCmd.SYNC.toWire then some .SYNC
  else if n = AdbCmd.CNXN.toWire then some .CNXN
  else if n = AdbCmd.AUTH.toWire then some .AUTH
  else if n = AdbCmd.OPEN.toWire then some .OPEN
  else if n = AdbCmd.OKAY.toWire then some .OKAY
  else if n = AdbCmd.CLSE.toWire then some .CLSE
  else if n = AdbCmd.WRTE.toWire then some .WRTE
  else none

/-- `AdbMessage.CalculateChecksum`: `sum(data) & 0xFFFFFFFF`. -/
def CalculateChecksum (data : List Nat) : Nat :=
  (data.foldl (· + ·) 0) &&& 0xFFFFFFFF

/-- `AdbMessage.Pack`: `struct.pack('<6I', command, arg0, arg1, len(data),
checksum, magic)` with `magic = command ^ 0xFFFFFFFF`. -/
def Pack (cmd : AdbCmd) (arg0 arg1 : Nat) (data : List Nat) : List Nat :=
  u32le cmd.toWire ++ u32le arg0 ++ u32le arg1 ++
    u32le data.length ++ u32le (CalculateChecksum data) ++
    u32le (cmd.toWire ^^^ 0xFFFFFFFF)

/-- `AdbMessage.Unpack`: `struct.unpack('<6I', message)`, returning
`(cmd, arg0, arg1, data_length, data_checksum)` and discarding the magic
word; `struct.error` (wrong length) becomes `none`. -/
def Unpack (message : List Nat) : Option (Nat × Nat × Nat × Nat × Nat) :=
  if message.length = 24 then
    match words 6 message with
    | [cmd, arg0, arg1, dataLength, dataChecksum, _magic] =>
        some (cmd, arg0, arg1, dataLength, dataChecksum)
    | _ => none
  else none

/-- `AdbMessage.Send` wire form of one message: the packed 24-byte header
followed by the payload (two back-to-back bulk writes). -/
def encodeMsg (cmd : AdbCmd) (arg0 arg1 : Nat) (data : List Nat) : List Nat :=
  Pack cmd arg0 arg1 data ++ data

section Lemmas

theorem leNat_u32le (n : Nat) (h : n < 2 ^ 32) : leNat (u32le n) = n := by
  simp only [u32le, leNat]
  omega

theorem u32le_length (n : Nat) : (u32le n).length = 4 := rfl

theorem Pack_length (cmd : AdbCmd) (arg0 arg1 : Nat) (data : List Nat) :
    (Pack cmd arg0 arg1 data).length = 24 := by
  simp [Pack, u32le]

theorem foldl_add_eq_sum : ∀ (l : List Nat) (a : Nat), l.foldl (· + ·) a = a + l.sum
  | [], a => by simp
  | b :: l, a => by
      simp only [List.foldl_cons, List.sum_cons, foldl_add_eq_sum l]
      omega

theorem CalculateChecksum_eq_mod (data : List Nat) :
    CalculateChecksum data = data.sum % 2 ^ 32 := by
  have h : (0xFFFFFFFF : Nat) = 2 ^ 32 - 1 := by norm_num
  rw [CalculateChecksum, h, Nat.and_pow_two_sub_one_eq_mod, foldl_add_eq_sum,
    Nat.zero_add]

theorem CalculateChecksum_lt (data : List Nat) :
    CalculateChecksum data < 2 ^ 32 := by
  rw [CalculateChecksum_eq_mod]
  exact Nat.mod_lt _ (by norm_num)

theorem AdbCmd.toWire_lt (c : AdbCmd) : c.toWire < 2 ^ 32 := by
  cases c <;> decide

theorem constantsGet_toWire (c : AdbCmd) : constantsGet c.toWire = some c := by
  cases c <;> decide

theorem words_cons4 (n a : Nat) (rest : List Nat) :
    words (n + 1) (u32le a ++ rest) = leNat (u32le a) :: words n rest := by
  simp [words, List.take_left' (u32le_length a), List.drop_left' (u32le_length a)]

/-- `Unpack` of a packed header recovers the five retained fields. -/
theorem Unpack_Pack (cmd : AdbCmd) (arg0 arg1 : Nat) (data : List Nat)
    (h0 : arg0 < 2 ^ 32) (h1 : arg1 < 2 ^ 32) (hd : data.length < 2 ^ 32) :
    Unpack (Pack cmd arg0 arg1 data) =
      some (cmd.toWire, arg0, arg1, data.length, CalculateChecksum data) := by
  have hlen := Pack_length cmd arg0 arg1 data
  simp only [Unpack, hlen, if_pos rfl]
  simp only [Pack, List.append_assoc, words_cons4]
  simp only [words, leNat_u32le _ (cmd.toWire_lt), leNat_u32le _ h0,
    leNat_u32le _ h1, leNat_u32le _ hd,
    leNat_u32le _ (CalculateChecksum_lt data)]
  simp

end Lemmas

/-! ## `AdbMessage.Read` and `_AdbConnection.ReadUntil` -/

/-- Errors raised by `AdbMessage.Read` and friends. -/
inductive AdbReadErr where
  /-- `InvalidCommandError` on an unknown wire command. -/
  | invalidCommand
  /-- `InvalidCommandError` after the overall timeout ran out. -/
  | timedOut
  /-- `InvalidChecksumError`. -/
  | invalidChecksum
  /-- `ValueError` from `struct.unpack` on a header of the wrong length. -/
  | valueError
  /-- A blocking bulk read that can never be satisfied. -/
  | readFailed
  deriving DecidableEq, Repr

/-- `AdbMessage.Read`: the incoming byte stream is `wire`; each loop
iteration bulk-reads 24 header bytes, unpacks them, rejects unknown
commands, and either returns the message (reading and checksum-verifying
its payload) when its command is expected, or continues with the header
consumed — and the payload of the skipped message *not* consumed.  The
overall timeout is modelled by `fuel`. -/
def ReadLoop (expected : List AdbCmd) : List Nat → Nat →
    Except AdbReadErr (AdbCmd × Nat × Nat × List Nat)
  | _, 0 => .error .timedOut
  | wire, fuel + 1 =>
    match Unpack (wire.take 24) with
    | none => .error .valueError
    | some (cmd, arg0, arg1, dataLength, dataChecksum) =>
      match constantsGet cmd with
      | none => .error .invalidCommand
      | some command =>
        if command ∈ expected then
          if dataLength > 0 then
            let rest := wire.drop 24
            if rest.length < dataLength then .error .readFailed
            else
              let data := rest.take dataLength
              if CalculateChecksum data ≠ dataChecksum then
                .error .invalidChecksum
              else .ok (command, arg0, arg1, data)
          else .ok (command, arg0, arg1, [])
        else ReadLoop expected (wire.drop 24) fuel

/-- The `(local_id, remote_id)` pair of an `_AdbConnection`. -/
structure ConnSt where
  local_id : Nat
  remote_id : Nat
  deriving DecidableEq, Repr

/-- Errors surfaced by `_AdbConnection.ReadUntil`. -/
inductive ConnErr where
  /-- `InterleavedDataError`. -/
  | interleaved
  /-- `InvalidResponseError` (incorrect remote id). -/
  | invalidResponse
  /-- An error propagated from `AdbMessage.Read`. -/
  | read (e : AdbReadErr)
  deriving DecidableEq, Repr

/-- `_AdbConnection.ReadUntil`: read one message via `AdbMessage.Read`
(binding `arg0` as `remote_id` and `arg1` as `local_id`), raise
`InterleavedDataError` when the incoming `local_id` is neither `0` nor our
`local_id`, raise `InvalidResponseError` when the incoming `remote_id` is
neither `0` nor our `remote_id`, and acknowledge `WRTE` with `OKAY`.  The
returned `Bool` records whether an `OKAY` acknowledgement was sent. -/
def ReadUntil (conn : ConnSt) (expected : List AdbCmd) (wire : List Nat)
    (fuel : Nat) : Except ConnErr (AdbCmd × List Nat × Bool) :=
  match ReadLoop expected wire fuel with
  | .error e => .error (.read e)
  | .ok (cmd, remote_id, local_id, data) =>
    if local_id ≠ 0 ∧ local_id ≠ conn.local_id then .error .interleaved
    else if remote_id ≠ 0 ∧ remote_id ≠ conn.remote_id then
      .error .invalidResponse
    else .ok (cmd, data, cmd = .WRTE)

/-- The `Read` loop decode, applied to the full wire form: `Unpack` of the
first 24 bytes, then the payload is the next `data_length` bytes. -/
def decodeMsg (bs : List Nat) : Option (Nat × Nat × Nat × Nat × Nat × List Nat) :=
  match Unpack (bs.take 24) with
  | none => none
  | some (cmd, arg0, arg1, dataLength, dataChecksum) =>
      some (cmd, arg0, arg1, dataLength, dataChecksum, (bs.drop 24).take dataLength)

section ReadLemmas

theorem take_24_Pack_append (cmd : AdbCmd) (a0 a1 : Nat) (d rest : List Nat) :
    (Pack cmd a0 a1 d ++ rest).take 24 = Pack cmd a0 a1 d :=
  List.take_left' (Pack_length cmd a0 a1 d)

theorem drop_24_Pack_append (cmd : AdbCmd) (a0 a1 : Nat) (d rest : List Nat) :
    (Pack cmd a0 a1 d ++ rest).drop 24 = rest :=
  List.drop_left' (Pack_length cmd a0 a1 d)

/-- `Unpack` of any 24-byte header, in terms of the five little-endian
words taken from bytes 0–19; the magic word (bytes 20–23) is dropped. -/
theorem Unpack_eq_of_length (m : List Nat) (h : m.length = 24) :
    Unpack m = some (leNat (m.take 4), leNat ((m.drop 4).take 4),
      leNat ((m.drop 8).take 4), leNat ((m.drop 12).take 4),
      leNat ((m.drop 16).take 4)) := by
  simp [Unpack, h, words, List.drop_drop]

/-- One iteration of the `Read` loop skips an unexpected message with an
empty payload, consuming exactly its 24 header bytes. -/
theorem ReadLoop_skip (expected : List AdbCmd) (c : AdbCmd) (a0 a1 : Nat)
    (rest : List Nat) (fuel : Nat) (h0 : a0 < 2 ^ 32) (h1 : a1 < 2 ^ 32)
    (hc : c ∉ expected) :
    ReadLoop expected (encodeMsg c a0 a1 [] ++ rest) (fuel + 1) =
      ReadLoop expected rest fuel := by
  simp only [encodeMsg, List.append_nil, ReadLoop, take_24_Pack_append,
    drop_24_Pack_append,
    Unpack_Pack c a0 a1 [] h0 h1 (by norm_num), constantsGet_toWire]
  simp [hc]

/-- The `Read` loop returns an expected message at the head of the wire,
with its payload read back and checksum-verified. -/
theorem ReadLoop_expected (expected : List AdbCmd) (c : AdbCmd) (a0 a1 : Nat)
    (data rest : List Nat) (fuel : Nat) (h0 : a0 < 2 ^ 32) (h1 : a1 < 2 ^ 32)
    (hd : data.length < 2 ^ 32) (hc : c ∈ expected) :
    ReadLoop expected (encodeMsg c a0 a1 data ++ rest) (fuel + 1) =
      .ok (c, a0, a1, data) := by
  simp only [encodeMsg, List.append_assoc, ReadLoop, take_24_Pack_append,
    drop_24_Pack_append, Unpack_Pack c a0 a1 data h0 h1 hd, constantsGet_toWire]
  simp only [if_pos hc]
  rcases Nat.eq_zero_or_pos data.length with hz | hp
  · rw [List.length_eq_zero] at hz
    subst hz
    simp
  · simp only [if_pos hp]
    rw [if_neg (by simp), List.take_left' rfl]
    simp

end ReadLemmas

section MagicLemmas

theorem take4_of_take20 (m : List Nat) (k : Nat) (hk : k + 4 ≤ 20) :
    (m.drop k).take 4 = ((m.take 20).drop k).take 4 := by
  rw [List.take_drop, List.take_drop, List.take_take,
    Nat.min_eq_left hk]

/-- `Unpack` looks only at bytes 0–19 of a 24-byte header: the magic word
is discarded. -/
theorem Unpack_of_take20 (m₁ m₂ : List Nat) (h₁ : m₁.length = 24)
    (h₂ : m₂.length = 24) (h : m₁.take 20 = m₂.take 20) :
    Unpack m₁ = Unpack m₂ := by
  rw [Unpack_eq_of_length m₁ h₁, Unpack_eq_of_length m₂ h₂]
  have t0 : m₁.take 4 = m₂.take 4 := by
    have e₁ : m₁.take 4 = (m₁.take 20).take 4 := by
      rw [List.take_take]; norm_num
    have e₂ : m₂.take 4 = (m₂.take 20).take 4 := by
      rw [List.take_take]; norm_num
    rw [e₁, e₂, h]
  rw [t0, take4_of_take20 m₁ 4 (by norm_num), take4_of_take20 m₂ 4 (by norm_num),
    take4_of_take20 m₁ 8 (by norm_num), take4_of_take20 m₂ 8 (by norm_num),
    take4_of_take20 m₁ 12 (by norm_num), take4_of_take20 m₂ 12 (by norm_num),
    take4_of_take20 m₁ 16 (by norm_num), take4_of_take20 m₂ 16 (by norm_num), h]

end MagicLemmas

/-! ## Claim C1 -/

/-- C1 (counterexample): a 24-byte header whose command word is the valid
`CNXN` code but whose magic word is `0` — so that
`magic ≠ command XOR 0xFFFFFFFF` — is *not* rejected by the `Read` loop:
the message is returned to the caller.  This refutes the claim that such a
header is rejected as invalid. -/
theorem read_accepts_corrupt_magic :
    leNat ((u32le AdbCmd.CNXN.toWire ++ u32le 1 ++ u32le 2 ++ u32le 0 ++
        u32le 0 ++ u32le 0).drop 20) ≠ AdbCmd.CNXN.toWire ^^^ 0xFFFFFFFF
    ∧ ReadLoop [.CNXN]
        (u32le AdbCmd.CNXN.toWire ++ u32le 1 ++ u32le 2 ++ u32le 0 ++
          u32le 0 ++ u32le 0) 1 = .ok (.CNXN, 1, 2, []) := by
  constructor
  · decide
  · decide

/-- C1 (amended): the header validation performed by `AdbMessage.Read` is
exactly the unknown-command check — a header whose command word is not one
of the seven known codes raises `InvalidCommandError` and is never
returned; the magic word is never examined, so two headers that agree on
bytes 0–19 and differ only in the magic word are treated identically. -/
theorem read_header_validation :
    (∀ (hdr wire : List Nat) (expected : List AdbCmd) (fuel : Nat),
      hdr.length = 24 → constantsGet (leNat (hdr.take 4)) = none →
      ReadLoop expected (hdr ++ wire) (fuel + 1) = .error .invalidCommand)
    ∧ (∀ (h₁ h₂ wire : List Nat) (expected : List AdbCmd) (fuel : Nat),
      h₁.length = 24 → h₂.length = 24 → h₁.take 20 = h₂.take 20 →
      ReadLoop expected (h₁ ++ wire) fuel = ReadLoop expected (h₂ ++ wire) fuel) := by
  constructor
  · intro hdr wire expected fuel hlen hcmd
    simp only [ReadLoop, List.take_left' hlen, Unpack_eq_of_length hdr hlen,
      hcmd]
  · intro h₁ h₂ wire expected fuel hl₁ hl₂ h
    cases fuel with
    | zero => rfl
    | succ n =>
      rw [ReadLoop, ReadLoop, List.take_left' hl₁, List.take_left' hl₂,
        List.drop_left' hl₁, List.drop_left' hl₂,
        Unpack_of_take20 h₁ h₂ hl₁ hl₂ h]

/-- C1 witness: a header carrying an unknown command word is rejected with
`InvalidCommandError`, and a known-command header is insensitive to its
magic word. -/
theorem read_header_validation_witness :
    ReadLoop [.CNXN] ([1, 1, 1, 1, 0, 0, 0, 0, 0, 0, 0, 0, 0, 0, 0, 0,
        0, 0, 0, 0, 9, 9, 9, 9] ++ []) 1 = .error .invalidCommand
    ∧ ReadLoop [.CNXN]
        ((u32le AdbCmd.CNXN.toWire ++ [0, 0, 0, 0, 0, 0, 0, 0, 0, 0, 0, 0,
          0, 0, 0, 0, 7, 7, 7, 7]) ++ []) 1 =
      ReadLoop [.CNXN]
        ((u32le AdbCmd.CNXN.toWire ++ [0, 0, 0, 0, 0, 0, 0, 0, 0, 0, 0, 0,
          0, 0, 0, 0, 8, 8, 8, 8]) ++ []) 1 :=
  ⟨read_header_validation.1 _ [] [.CNXN] 0 (by decide) (by decide),
   read_header_validation.2 _ _ [] [.CNXN] 1 (by decide) (by decide) (by decide)⟩

/-! ## Claim C2 -/

/-- C2 (counterexample): with our ids `(local_id, remote_id) = (1, 17)`,
the device's ordinary `WRTE(17, 1, data)` has incoming `remote_id = 17`,
which is neither `0` nor our `local_id = 1`; the claim demands
`InterleavedData`, but `ReadUntil` accepts the message.  Conversely, a
message `WRTE(99, 1)` whose ids do not identify the stream raises
`InvalidResponseError`, not `InterleavedData`. -/
theorem readuntil_id_check_counterexample :
    (¬ ((17 : Nat) = 0 ∨ (17 : Nat) = 1))
    ∧ ReadUntil ⟨1, 17⟩ [.WRTE] (encodeMsg .WRTE 17 1 [104, 105]) 1 =
        .ok (.WRTE, [104, 105], true)
    ∧ ReadUntil ⟨1, 17⟩ [.WRTE] (encodeMsg .WRTE 99 1 []) 1 =
        .error .invalidResponse := by
  refine ⟨by decide, by decide, by decide⟩

/-- C2 (amended): when `AdbMessage.Read` returns a message
`(cmd, remote_id = arg0, local_id = arg1, data)`, `ReadUntil` raises
`InterleavedDataError` exactly when the incoming `local_id` is neither `0`
nor our `local_id`; when that check passes but the incoming `remote_id` is
neither `0` nor our `remote_id` it raises `InvalidResponseError` instead;
and when both checks pass the message is returned (acknowledging `WRTE`
with `OKAY`). -/
theorem readuntil_id_validation (conn : ConnSt) (expected : List AdbCmd)
    (wire : List Nat) (fuel : Nat) (cmd : AdbCmd) (a0 a1 : Nat)
    (data : List Nat)
    (h : ReadLoop expected wire fuel = .ok (cmd, a0, a1, data)) :
    (a1 ≠ 0 ∧ a1 ≠ conn.local_id →
      ReadUntil conn expected wire fuel = .error .interleaved)
    ∧ ((a1 = 0 ∨ a1 = conn.local_id) → a0 ≠ 0 ∧ a0 ≠ conn.remote_id →
      ReadUntil conn expected wire fuel = .error .invalidResponse)
    ∧ ((a1 = 0 ∨ a1 = conn.local_id) → (a0 = 0 ∨ a0 = conn.remote_id) →
      ReadUntil conn expected wire fuel =
        .ok (cmd, data, decide (cmd = .WRTE))) := by
  refine ⟨fun h1 => ?_, fun h1 h2 => ?_, fun h1 h2 => ?_⟩ <;>
    simp only [ReadUntil, h] <;>
    [rw [if_pos h1];
     rw [if_neg (by tauto), if_pos h2];
     rw [if_neg (by tauto), if_neg (by tauto)]]

/-- C2 witness: the device's normal `OKAY(17, 1)` for our stream `(1, 17)`
passes both id checks and is returned. -/
theorem readuntil_id_validation_witness :
    ReadUntil ⟨1, 17⟩ [.OKAY] (encodeMsg .OKAY 17 1 []) 1 =
      .ok (.OKAY, [], false) :=
  (readuntil_id_validation ⟨1, 17⟩ [.OKAY] (encodeMsg .OKAY 17 1 []) 1
      .OKAY 17 1 [] (by decide)).2.2 (Or.inr rfl) (Or.inr rfl)

/-! ## Claim C3 -/

/-- C3 (counterexample): a checksum-correct, known-command but unexpected
`WRTE` message carrying a 4-byte payload precedes an expected `CNXN`
message.  The `Read` loop consumes only the 24 header bytes of the skipped
message, so the next header read lands on the skipped payload, desyncing
the stream: the loop fails with `InvalidCommandError` instead of returning
the expected message. -/
theorem read_skip_nonempty_payload_counterexample :
    ReadLoop [.CNXN]
        (encodeMsg .WRTE 2 2 [1, 2, 3, 4] ++ encodeMsg .CNXN 5 6 []) 3 =
      .error .invalidCommand
    ∧ ReadLoop [.CNXN]
        (encodeMsg .WRTE 2 2 [1, 2, 3, 4] ++ encodeMsg .CNXN 5 6 []) 3 ≠
      .ok (.CNXN, 5, 6, []) := by
  refine ⟨by decide, by decide⟩

/-- C3 (amended): when zero or more valid unexpected messages with *empty*
payloads precede the first expected message, the `Read` loop skips them
and returns the expected message's command, `arg0`, `arg1` and payload
intact (checksum-verified). -/
theorem read_message_skips_empty_unexpected
    (skips : List (AdbCmd × Nat × Nat)) (expected : List AdbCmd)
    (c : AdbCmd) (a0 a1 : Nat) (data rest : List Nat)
    (hskips : ∀ s ∈ skips, s.1 ∉ expected ∧ s.2.1 < 2 ^ 32 ∧ s.2.2 < 2 ^ 32)
    (h0 : a0 < 2 ^ 32) (h1 : a1 < 2 ^ 32) (hd : data.length < 2 ^ 32)
    (hc : c ∈ expected) :
    ReadLoop expected
      ((skips.map fun s => encodeMsg s.1 s.2.1 s.2.2 []).flatten ++
        encodeMsg c a0 a1 data ++ rest)
      (skips.length + 1) = .ok (c, a0, a1, data) := by
  induction skips with
  | nil =>
      simpa using ReadLoop_expected expected c a0 a1 data rest 0 h0 h1 hd hc
  | cons s ss ih =>
      obtain ⟨hs1, hs2, hs3⟩ := hskips s (List.mem_cons_self s ss)
      have hrest := fun t ht => hskips t (List.mem_cons_of_mem s ht)
      simp only [List.map_cons, List.flatten_cons, List.append_assoc,
        List.length_cons]
      rw [show ss.length + 1 + 1 = (ss.length + 1) + 1 from rfl,
        ReadLoop_skip expected s.1 s.2.1 s.2.2 _ (ss.length + 1) hs2 hs3 hs1]
      simpa [List.append_assoc] using ih hrest

/-- C3 witness: one unexpected `OKAY` with empty payload is skipped and
the following expected `WRTE` message is returned with its payload. -/
theorem read_message_skips_empty_unexpected_witness :
    ReadLoop [.WRTE]
      (([(AdbCmd.OKAY, 7, 8)].map fun s => encodeMsg s.1 s.2.1 s.2.2 []).flatten ++
        encodeMsg .WRTE 17 1 [65, 66] ++ []) 2 = .ok (.WRTE, 17, 1, [65, 66]) :=
  read_message_skips_empty_unexpected [(AdbCmd.OKAY, 7, 8)] [.WRTE] .WRTE 17 1
    [65, 66] [] (by decide) (by decide) (by decide) (by decide) (by decide)

/-! ## Claim C4 -/

/-- C4: `CalculateChecksum` is the byte sum reduced modulo `2^32`; the
empty payload has checksum `0`; and corrupting exactly one byte of a
payload always changes the checksum. -/
theorem checksum_spec :
    (∀ P : List Nat, CalculateChecksum P = P.sum % 2 ^ 32)
    ∧ CalculateChecksum [] = 0
    ∧ (∀ (A C : List Nat) (b b' : Nat), b < 256 → b' < 256 → b ≠ b' →
      CalculateChecksum (A ++ b :: C) ≠ CalculateChecksum (A ++ b' :: C)) := by
  refine ⟨CalculateChecksum_eq_mod, rfl, fun A C b b' hb hb' hne => ?_⟩
  simp only [CalculateChecksum_eq_mod, List.sum_append, List.sum_cons]
  omega

/-- C4 witness: a one-byte corruption at a concrete payload is detected. -/
theorem checksum_spec_witness :
    CalculateChecksum [10, 5] ≠ CalculateChecksum [10, 6] :=
  checksum_spec.2.2 [10] [] 5 6 (by decide) (by decide) (by decide)

/-! ## Claim C5 -/

/-- C5: for every known command, 32-bit `arg0` and `arg1`, and payload of
at most `MAX_ADB_DATA` bytes, decoding the encoded wire form recovers the
command, `arg0`, `arg1`, data length, checksum and payload. -/
theorem decode_encode_roundtrip (cmd : AdbCmd) (a0 a1 : Nat)
    (data : List Nat) (h0 : a0 < 2 ^ 32) (h1 : a1 < 2 ^ 32)
    (hd : data.length ≤ MAX_ADB_DATA) :
    decodeMsg (encodeMsg cmd a0 a1 data) =
      some (cmd.toWire, a0, a1, data.length, CalculateChecksum data, data) := by
  have hd' : data.length < 2 ^ 32 :=
    lt_of_le_of_lt hd (by norm_num [MAX_ADB_DATA])
  simp only [decodeMsg, encodeMsg, take_24_Pack_append, drop_24_Pack_append,
    Unpack_Pack cmd a0 a1 data h0 h1 hd', List.take_length]

/-- C5 witness: round-trip at a concrete message. -/
theorem decode_encode_roundtrip_witness :
    decodeMsg (encodeMsg .WRTE 1 2 [3, 4]) =
      some (AdbCmd.WRTE.toWire, 1, 2, 2, 7, [3, 4]) :=
  decode_encode_roundtrip .WRTE 1 2 [3, 4] (by decide) (by decide) (by decide)

/-! ## Filesync layer (`filesync_protocol.py`) -/

/-- The ten filesync command ids (`FileSyncConnection.ids`). -/
inductive FsId where
  | STAT | LIST | SEND | RECV | DENT | DONE | DATA | OKAY | FAIL | QUIT
  deriving DecidableEq, Repr

/-- ASCII bytes of each filesync id. -/
def FsId.bytes : FsId → List Nat
  | .STAT => [0x53, 0x54, 0x41, 0x54]
  | .LIST => [0x4C, 0x49, 0x53, 0x54]
  | .SEND => [0x53, 0x45, 0x4E, 0x44]
  | .RECV => [0x52, 0x45, 0x43, 0x56]
  | .DENT => [0x44, 0x45, 0x4E, 0x54]
  | .DONE => [0x44, 0x4F, 0x4E, 0x45]
  | .DATA => [0x44, 0x41, 0x54, 0x41]
  | .OKAY => [0x4F, 0x4B, 0x41, 0x59]
  | .FAIL => [0x46, 0x41, 0x49, 0x4C]
  | .QUIT => [0x51, 0x55, 0x49, 0x54]

/-- `id_to_wire` of `MakeWireIDs` applied to the filesync ids. -/
def FsId.toWire (i : FsId) : Nat := leNat i.bytes

/-- `wire_to_id` lookup for filesync ids; `none` is the `KeyError` case. -/
def fsWireToId (n : Nat) : Option FsId :=
  if n = FsId.STAT.toWire then some .STAT
  else if n = FsId.LIST.toWire then some .LIST
  else if n = FsId.SEND.toWire then some .SEND
  else if n = FsId.RECV.toWire then some .RECV
  else if n = FsId.DENT.toWire then some .DENT
  else if n = FsId.DONE.toWire then some .DONE
  else if n = FsId.DATA.toWire then some .DATA
  else if n = FsId.OKAY.toWire then some .OKAY
  else if n = FsId.FAIL.toWire then some .FAIL
  else if n = FsId.QUIT.toWire then some .QUIT
  else none

/-- Receive-side state of a `FileSyncConnection`: the ADB `WRTE` payloads
not yet pulled (`chunks`, each one `ReadUntil(b'WRTE')` result) and the
`recv_buffer` bytearray. -/
structure FSState where
  chunks : List (List Nat)
  buf : List Nat
  deriving DecidableEq, Repr

/-- All bytes still available to the receive side, in order. -/
def FSState.total (st : FSState) : List Nat := st.buf ++ st.chunks.flatten

/-- `FileSyncConnection._ReadBuffered`: pull `WRTE` payloads into
`recv_buffer` until it holds `size` bytes, then split off the first `size`
bytes.  `none` models blocking forever on `ReadUntil` with no more frames
available. -/
def readBuffered : List (List Nat) → List Nat → Nat →
    Option (List Nat × List (List Nat) × List Nat)
  | chunks, buf, size =>
    if size ≤ buf.length then some (buf.take size, chunks, buf.drop size)
    else
      match chunks with
      | [] => none
      | c :: cs => readBuffered cs (buf ++ c) size

/-- Errors surfaced by `FileSyncConnection.Read`. -/
inductive FsErr where
  /-- The overall run ran out of fuel (a non-terminating read loop). -/
  | fuel
  /-- `_ReadBuffered` blocked with no more `WRTE` frames available. -/
  | blocked
  /-- `KeyError` from the `wire_to_id` lookup on an unknown packet id. -/
  | keyError
  /-- `AdbCommandFailureException` carrying the remaining `recv_buffer`. -/
  | commandFailed (reason : List Nat)
  /-- `InvalidResponseError`: response id not in `expected_ids`. -/
  | invalidResponse
  /-- An exception escaping the progress generator (never happens). -/
  | progressAborted
  deriving DecidableEq, Repr

/-- `FileSyncConnection.Read` (with `read_data=True`): read a
`4 * w`-byte header off the buffered stream (`w` words for the
`recv_header_format`), look up its id, reject ids outside `expected_ids`
(`FAIL` becomes `AdbCommandFailureException` whose reason is the current
`recv_buffer`), then read `header[-1]` bytes of data.  Returns the id,
`header[1:-1]`, the data, and the new receive state. -/
def fsRead (w : Nat) (expected : List FsId) (st : FSState) :
    Except FsErr (FsId × List Nat × List Nat × FSState) :=
  match readBuffered st.chunks st.buf (4 * w) with
  | none => .error .blocked
  | some (headerData, chunks₁, buf₁) =>
    let header := words w headerData
    match fsWireToId (header.headD 0) with
    | none => .error .keyError
    | some commandId =>
      if commandId ∉ expected then
        if commandId = .FAIL then .error (.commandFailed buf₁)
        else .error .invalidResponse
      else
        match readBuffered chunks₁ buf₁ (header.getLastD 0) with
        | none => .error .blocked
        | some (data, chunks₂, buf₂) =>
          .ok (commandId, (header.drop 1).dropLast, data, ⟨chunks₂, buf₂⟩)

/-- `FileSyncConnection.ReadUntil`: repeatedly `Read` with
`expected_ids + finish_ids`, yielding each packet, and stop after the
first packet whose id is in `finish_ids`.  Returns the yielded packets and
the error that ended the loop, if any. -/
def fsReadUntil (w : Nat) (expected finish : List FsId) :
    FSState → Nat → List (FsId × List Nat × List Nat) × Option FsErr
  | _, 0 => ([], some .fuel)
  | st, fuel + 1 =>
    match fsRead w (expected ++ finish) st with
    | .error e => ([], some e)
    | .ok (cmdId, hdr, data, st') =>
      if cmdId ∈ finish then ([(cmdId, hdr, data)], none)
      else
        let r := fsReadUntil w expected finish st' fuel
        ((cmdId, hdr, data) :: r.1, r.2)

section ReadBufferedLemmas

theorem readBuffered_none {chunks : List (List Nat)} {buf : List Nat}
    {size : Nat} (h : readBuffered chunks buf size = none) :
    (buf ++ chunks.flatten).length < size := by
  induction chunks generalizing buf with
  | nil =>
      rw [readBuffered] at h
      split at h
      · exact absurd h (by simp)
      · simp only [List.flatten_nil, List.append_nil]
        omega
  | cons c cs ih =>
      rw [readBuffered] at h
      split at h
      · exact absurd h (by simp)
      · have := ih h
        simpa [List.append_assoc] using this

theorem readBuffered_some {chunks : List (List Nat)} {buf : List Nat}
    {size : Nat} {res : List Nat} {chunks' : List (List Nat)} {buf' : List Nat}
    (h : readBuffered chunks buf size = some (res, chunks', buf')) :
    res = (buf ++ chunks.flatten).take size ∧
      buf' ++ chunks'.flatten = (buf ++ chunks.flatten).drop size := by
  induction chunks generalizing buf with
  | nil =>
      rw [readBuffered] at h
      split at h
      next hle =>
        obtain ⟨h1, h2, h3⟩ := by simpa using h
        subst h1; subst h2; subst h3
        simp
      · exact absurd h (by simp)
  | cons c cs ih =>
      rw [readBuffered] at h
      split at h
      next hle =>
        obtain ⟨h1, h2, h3⟩ := by simpa using h
        subst h1; subst h2; subst h3
        constructor
        · rw [List.take_append_of_le_length hle]
        · rw [List.flatten_cons, ← List.append_assoc,
            List.drop_append_of_le_length hle, List.append_assoc]
      next hle =>
        have := ih h
        simpa [List.append_assoc] using this

theorem readBuffered_some_le {chunks : List (List Nat)} {buf : List Nat}
    {size : Nat} {res : List Nat} {chunks' : List (List Nat)} {buf' : List Nat}
    (h : readBuffered chunks buf size = some (res, chunks', buf')) :
    size ≤ (buf ++ chunks.flatten).length := by
  induction chunks generalizing buf with
  | nil =>
      rw [readBuffered] at h
      split at h
      next hle => simpa using Nat.le_trans hle (by simp)
      · exact absurd h (by simp)
  | cons c cs ih =>
      rw [readBuffered] at h
      split at h
      next hle => simp only [List.length_append] at hle ⊢; omega
      next hle =>
        have := ih h
        simpa [List.append_assoc] using this

/-- When not enough bytes are available, `readBuffered` fails. -/
theorem readBuffered_none_of_lt {chunks : List (List Nat)} {buf : List Nat}
    {size : Nat} (h : (buf ++ chunks.flatten).length < size) :
    readBuffered chunks buf size = none := by
  match hres : readBuffered chunks buf size with
  | none => rfl
  | some (res, chunks', buf') =>
    exact absurd (readBuffered_some_le hres) (by omega)

end ReadBufferedLemmas

section ReframerInvariance

/-- Two receive states carrying the same byte stream produce the same
`_ReadBuffered` bytes, and their successor states again carry the same
byte stream. -/
theorem readBuffered_congr {c₁ c₂ : List (List Nat)} {b₁ b₂ : List Nat}
    (size : Nat) (h : b₁ ++ c₁.flatten = b₂ ++ c₂.flatten) :
    (readBuffered c₁ b₁ size = none ∧ readBuffered c₂ b₂ size = none)
    ∨ (∃ res k₁ d₁ k₂ d₂,
        readBuffered c₁ b₁ size = some (res, k₁, d₁) ∧
        readBuffered c₂ b₂ size = some (res, k₂, d₂) ∧
        d₁ ++ k₁.flatten = d₂ ++ k₂.flatten) := by
  match h₁ : readBuffered c₁ b₁ size with
  | none =>
      left
      refine ⟨rfl, readBuffered_none_of_lt ?_⟩
      rw [← h]
      exact readBuffered_none h₁
  | some (res, k₁, d₁) =>
      right
      match h₂ : readBuffered c₂ b₂ size with
      | none =>
          have := readBuffered_none h₂
          rw [← h] at this
          exact absurd (readBuffered_some_le h₁) (by omega)
      | some (res', k₂, d₂) =>
          obtain ⟨e₁, e₂⟩ := readBuffered_some h₁
          obtain ⟨e₁', e₂'⟩ := readBuffered_some h₂
          refine ⟨res, k₁, d₁, k₂, d₂, rfl, ?_, ?_⟩
          · rw [e₁', ← h, ← e₁]
          · rw [e₂, e₂', h]

/-- Two receive states carrying the same byte stream behave identically
under `FileSyncConnection.Read`: they fail together, and on success they
return the same packet and leave states carrying the same byte stream. -/
theorem fsRead_congr (w : Nat) (e : List FsId) (st₁ st₂ : FSState)
    (h : st₁.total = st₂.total) :
    (∃ err₁ err₂, fsRead w e st₁ = .error err₁ ∧ fsRead w e st₂ = .error err₂)
    ∨ (∃ c hd d s₁ s₂, fsRead w e st₁ = .ok (c, hd, d, s₁) ∧
        fsRead w e st₂ = .ok (c, hd, d, s₂) ∧ s₁.total = s₂.total) := by
  have h' : st₁.buf ++ st₁.chunks.flatten = st₂.buf ++ st₂.chunks.flatten := h
  rcases readBuffered_congr (4 * w) h' with ⟨hn₁, hn₂⟩ |
    ⟨res, k₁, d₁, k₂, d₂, hs₁, hs₂, hrest⟩
  · left
    exact ⟨.blocked, .blocked, by simp [fsRead, hn₁], by simp [fsRead, hn₂]⟩
  · cases hid : fsWireToId ((words w res).head?.getD 0) with
    | none =>
        left
        exact ⟨.keyError, .keyError, by simp [fsRead, hs₁, hid],
          by simp [fsRead, hs₂, hid]⟩
    | some commandId =>
        by_cases hmem : commandId ∈ e
        · rcases readBuffered_congr ((words w res).getLast?.getD 0) hrest with
            ⟨hn₁, hn₂⟩ | ⟨data, j₁, u₁, j₂, u₂, ht₁, ht₂, hrest₂⟩
          · left
            exact ⟨.blocked, .blocked,
              by simp [fsRead, hs₁, hid, hmem, hn₁],
              by simp [fsRead, hs₂, hid, hmem, hn₂]⟩
          · right
            exact ⟨commandId, ((words w res).drop 1).dropLast, data,
              ⟨j₁, u₁⟩, ⟨j₂, u₂⟩,
              by simp [fsRead, hs₁, hid, hmem, ht₁],
              by simp [fsRead, hs₂, hid, hmem, ht₂], hrest₂⟩
        · by_cases hfail : commandId = .FAIL
          · subst hfail
            left
            exact ⟨.commandFailed d₁, .commandFailed d₂,
              by simp [fsRead, hs₁, hid, hmem],
              by simp [fsRead, hs₂, hid, hmem]⟩
          · left
            exact ⟨.invalidResponse, .invalidResponse,
              by simp [fsRead, hs₁, hid, hmem, hfail],
              by simp [fsRead, hs₂, hid, hmem, hfail]⟩

/-- The packets yielded by `ReadUntil` depend only on the byte stream the
receive state carries, not on its split into `WRTE` payloads. -/
theorem fsReadUntil_congr (w : Nat) (expected finish : List FsId)
    (fuel : Nat) (st₁ st₂ : FSState) (h : st₁.total = st₂.total) :
    (fsReadUntil w expected finish st₁ fuel).1 =
      (fsReadUntil w expected finish st₂ fuel).1 := by
  induction fuel generalizing st₁ st₂ with
  | zero => rfl
  | succ n ih =>
      rcases fsRead_congr w (expected ++ finish) st₁ st₂ h with
        ⟨err₁, err₂, he₁, he₂⟩ | ⟨c, hd, d, s₁, s₂, ho₁, ho₂, hs⟩
      · simp [fsReadUntil, he₁, he₂]
      · simp only [fsReadUntil, ho₁, ho₂]
        by_cases hfin : c ∈ finish
        · rw [if_pos hfin, if_pos hfin]
        · rw [if_neg hfin, if_neg hfin]
          simpa using ih s₁ s₂ hs

end ReframerInvariance

/-! ## Claim C6 -/

/-- C6: splitting the same filesync byte stream differently across ADB
`WRTE` payloads does not change the sequence of filesync packets the
reader yields: for any two payload sequences with equal concatenation,
`ReadUntil` (over `Read` and `_ReadBuffered`) yields the same packets
(ids, header fields and data). -/
theorem reframer_split_invariant (w : Nat) (expected finish : List FsId)
    (fuel : Nat) (chunks₁ chunks₂ : List (List Nat))
    (h : chunks₁.flatten = chunks₂.flatten) :
    (fsReadUntil w expected finish ⟨chunks₁, []⟩ fuel).1 =
      (fsReadUntil w expected finish ⟨chunks₂, []⟩ fuel).1 :=
  fsReadUntil_congr w expected finish fuel ⟨chunks₁, []⟩ ⟨chunks₂, []⟩
    (by simpa [FSState.total] using h)

/-- C6 witness: a `DATA`+payload packet followed by a `DONE` packet,
delivered either as one big `WRTE` payload or split mid-header and
mid-data across three `WRTE` payloads, yields the same two packets. -/
theorem reframer_split_invariant_witness :
    (fsReadUntil 2 [.DATA] [.DONE]
        ⟨[[0x44, 0x41, 0x54, 0x41, 3, 0, 0, 0, 10, 20, 30,
           0x44, 0x4F, 0x4E, 0x45, 0, 0, 0, 0]], []⟩ 3).1 =
      (fsReadUntil 2 [.DATA] [.DONE]
        ⟨[[0x44, 0x41], [0x54, 0x41, 3, 0, 0, 0, 10],
          [20, 30, 0x44, 0x4F, 0x4E, 0x45, 0, 0, 0, 0]], []⟩ 3).1 :=
  reframer_split_invariant 2 [.DATA] [.DONE] 3 _ _ (by decide)

/-! ## Progress callbacks and the transfer loops -/

/-- Outcome of one `progress_callback` invocation: it either returns
normally or raises an exception. -/
inductive CbRes where
  | ok
  | raises
  deriving DecidableEq, Repr

/-- One `send` into the `_HandleProgress` generator (both the filesync and
the fastboot variant): `current += delta`, then the callback is invoked
inside `try: ... except Exception: continue`, so the generator always
resumes normally whatever the callback does.  An `Except.error` result
would model an exception escaping to the caller of `send`. -/
def handleProgressSend (cb : Nat → CbRes) (current delta : Nat) :
    Except Unit Nat :=
  match cb (current + delta) with
  | .ok => .ok (current + delta)
  | .raises => .ok (current + delta)

/-- Optional-progress step used by the transfer loops: with no callback
there is no progress object and no state change. -/
def progressStep (cb : Option (Nat → CbRes)) (current delta : Nat) :
    Except Unit Nat :=
  match cb with
  | none => .ok current
  | some f => handleProgressSend f current delta

theorem handleProgressSend_eq (cb : Nat → CbRes) (current delta : Nat) :
    handleProgressSend cb current delta = .ok (current + delta) := by
  rw [handleProgressSend]
  cases cb (current + delta) <;> rfl

theorem progressStep_congr (f g : Nat → CbRes) (current delta : Nat) :
    progressStep (some f) current delta = progressStep (some g) current delta := by
  rw [progressStep, progressStep, handleProgressSend_eq, handleProgressSend_eq]

/-- A filesync packet handed to `FileSyncConnection.Send`:
`(command_id, size, data)`. -/
structure SentPacket where
  id : FsId
  size : Nat
  data : List Nat
  deriving DecidableEq, Repr

/-- The `while True` send loop of `FilesyncProtocol.Push`: read up to
`MAX_PUSH_DATA` bytes from the source; while the read is non-empty
(`MAX_PUSH_DATA = 2048 > 0`, so exactly while the source is non-empty),
send one `DATA` packet and feed the progress generator, then read again. -/
def pushLoop (cb : Option (Nat → CbRes)) :
    List Nat → Nat → List SentPacket × Option FsErr
  | [], _ => ([], none)
  | b :: bs, current =>
    let data := (b :: bs).take MAX_PUSH_DATA
    match progressStep cb current data.length with
    | .error _ => ([⟨.DATA, data.length, data⟩], some .progressAborted)
    | .ok current' =>
      let r := pushLoop cb ((b :: bs).drop MAX_PUSH_DATA) current'
      (⟨.DATA, data.length, data⟩ :: r.1, r.2)
termination_by rem _ => rem.length
decreasing_by
  simp only [List.length_drop, List.length_cons, MAX_PUSH_DATA]
  omega

/-- Result of `FilesyncProtocol.Push`. -/
inductive PushResult where
  | ok
  /-- `PushFailedError` carrying the reply payload. -/
  | pushFailed (payload : List Nat)
  /-- `InvalidResponseError` from `FileSyncConnection.Read` on a reply id
  other than `OKAY`/`FAIL`. -/
  | invalidResponse
  /-- An exception escaped the progress generator (never happens). -/
  | aborted
  deriving DecidableEq, Repr

/-- `FilesyncProtocol.Push`: send `SEND fileinfo`; loop sending `DATA`
packets of successive source reads of at most `MAX_PUSH_DATA` bytes until
EOF; send `DONE` with `mtime` in the size field, substituting the current
unix time (`now`) when `mtime = 0`; then handle the single reply packet
read back via `ReadUntil((), OKAY, FAIL)`: `OKAY` succeeds, `FAIL` raises
`PushFailedError` with the reply payload, any other id is an invalid
response.  Returns the packets handed to `Send` and the outcome. -/
def Push (content fileinfo : List Nat) (mtime now : Nat)
    (cb : Option (Nat → CbRes)) (reply : FsId × List Nat) :
    List SentPacket × PushResult :=
  let r := pushLoop cb content 0
  match r.2 with
  | some _ => (⟨.SEND, fileinfo.length, fileinfo⟩ :: r.1, .aborted)
  | none =>
    let mtime' := if mtime = 0 then now else mtime
    let sent := ⟨.SEND, fileinfo.length, fileinfo⟩ ::
      (r.1 ++ [⟨.DONE, mtime', []⟩])
    match reply with
    | (.OKAY, _) => (sent, .ok)
    | (.FAIL, payload) => (sent, .pushFailed payload)
    | _ => (sent, .invalidResponse)

/-- The receive loop of `FilesyncProtocol.Pull`:
`for cmd_id, _, data in cnxn.ReadUntil((DATA,), DONE)` — stop on `DONE`,
otherwise write `data` to the destination and feed the progress
generator.  Returns the bytes written and the error ending the loop, if
any. -/
def PullLoop (cb : Option (Nat → CbRes)) :
    FSState → Nat → Nat → List Nat × Option FsErr
  | _, _, 0 => ([], some .fuel)
  | st, current, fuel + 1 =>
    match fsRead 2 [.DATA, .DONE] st with
    | .error e => ([], some e)
    | .ok (id, _, data, st') =>
      if id = .DONE then ([], none)
      else
        match progressStep cb current data.length with
        | .error _ => (data, some .progressAborted)
        | .ok current' =>
          let r := PullLoop cb st' current' fuel
          (data ++ r.1, r.2)

/-- `FastbootProtocol._Write`: send the source in `chunk_kb * 1024`-byte
bulk writes (here `chunkBytes`), feeding the progress generator after each
chunk.  `fuel` bounds the `while length:` loop (it never terminates when
the source is exhausted early or `chunkBytes = 0`).  Returns the chunks
bulk-written and `some ()` if the loop did not finish. -/
def fbWriteLoop (chunkBytes : Nat) (cb : Option (Nat → CbRes)) :
    Nat → List Nat → Nat → List (List Nat) × Option Unit
  | 0, _, _ => ([], some ())
  | fuel + 1, rem, current =>
    if rem.isEmpty then ([], none)
    else
      let tmp := rem.take chunkBytes
      match progressStep cb current tmp.length with
      | .error _ => ([tmp], some ())
      | .ok current' =>
        let r := fbWriteLoop chunkBytes cb fuel (rem.drop chunkBytes) current'
        (tmp :: r.1, r.2)

section PushLemmas

theorem progressStep_isOk (cb : Option (Nat → CbRes)) (current delta : Nat) :
    ∃ c', progressStep cb current delta = .ok c' := by
  cases cb with
  | none => exact ⟨current, rfl⟩
  | some f => exact ⟨current + delta, handleProgressSend_eq f current delta⟩

/-- The push send loop emits one `DATA` packet per successive non-empty
source chunk of at most `MAX_PUSH_DATA` bytes, never aborts, and the
chunks reassemble the source exactly. -/
theorem pushLoop_spec (cb : Option (Nat → CbRes)) :
    ∀ (n : Nat) (content : List Nat), content.length ≤ n → ∀ (current : Nat),
    ∃ datas : List (List Nat),
      datas.flatten = content ∧
      (∀ d ∈ datas, d ≠ [] ∧ d.length ≤ MAX_PUSH_DATA) ∧
      pushLoop cb content current =
        (datas.map fun d => SentPacket.mk .DATA d.length d, none) := by
  intro n
  induction n with
  | zero =>
      intro content hlen current
      have hnil : content = [] := List.eq_nil_of_length_eq_zero (Nat.le_zero.mp hlen)
      subst hnil
      exact ⟨[], rfl, by simp, by simp [pushLoop]⟩
  | succ n ih =>
      intro content hlen current
      match content with
      | [] => exact ⟨[], rfl, by simp, by simp [pushLoop]⟩
      | b :: bs =>
        obtain ⟨c', hc'⟩ :=
          progressStep_isOk cb current ((b :: bs).take MAX_PUSH_DATA).length
        have hlen' : ((b :: bs).drop MAX_PUSH_DATA).length ≤ n := by
          simp only [List.length_drop, List.length_cons] at *
          simp only [MAX_PUSH_DATA]
          omega
        obtain ⟨datas, hflat, hprop, hrec⟩ := ih _ hlen' c'
        refine ⟨(b :: bs).take MAX_PUSH_DATA :: datas, ?_, ?_, ?_⟩
        · rw [List.flatten_cons, hflat, List.take_append_drop]
        · intro d hd
          rcases List.mem_cons.mp hd with hd | hd
          · subst hd
            refine ⟨by simp [MAX_PUSH_DATA], ?_⟩
            simp only [List.length_take]
            omega
          · exact hprop d hd
        · simp only [pushLoop, hc', hrec]
          simp

/-- The push send loop behaves identically under any two progress
callbacks (progress state advances to `current + delta` whether or not
the callback raises). -/
theorem pushLoop_cb_congr (f g : Nat → CbRes) :
    ∀ (n : Nat) (content : List Nat), content.length ≤ n → ∀ (current : Nat),
    pushLoop (some f) content current = pushLoop (some g) content current := by
  intro n
  induction n with
  | zero =>
      intro content hlen current
      have hnil : content = [] := List.eq_nil_of_length_eq_zero (Nat.le_zero.mp hlen)
      subst hnil
      simp [pushLoop]
  | succ n ih =>
      intro content hlen current
      match content with
      | [] => simp [pushLoop]
      | b :: bs =>
        have hlen' : ((b :: bs).drop MAX_PUSH_DATA).length ≤ n := by
          simp only [List.length_drop, List.length_cons] at *
          simp only [MAX_PUSH_DATA]
          omega
        simp only [pushLoop,
          progressStep_congr f g current ((b :: bs).take MAX_PUSH_DATA).length,
          handleProgressSend_eq, progressStep]
        rw [ih _ hlen']

end PushLemmas

/-! ## Claim C7 -/

/-- C7: `FilesyncProtocol.Push` sends `SEND`, then one `DATA` packet per
non-empty source chunk of at most `MAX_PUSH_DATA = 2048` bytes until EOF
(the chunks reassembling the source exactly), then one `DONE` packet
whose size field carries `mtime` — or the current time `now` when
`mtime = 0` — and handles the single reply: `OKAY` is the only reply that
succeeds, and `FAIL` raises `PushFailedError` with the reply payload. -/
theorem push_protocol (content fileinfo : List Nat) (mtime now : Nat)
    (cb : Option (Nat → CbRes)) (reply : FsId × List Nat) :
    ∃ datas : List (List Nat),
      datas.flatten = content ∧
      (∀ d ∈ datas, d ≠ [] ∧ d.length ≤ MAX_PUSH_DATA) ∧
      (Push content fileinfo mtime now cb reply).1 =
        ⟨.SEND, fileinfo.length, fileinfo⟩ ::
          ((datas.map fun d => SentPacket.mk .DATA d.length d) ++
            [⟨.DONE, if mtime = 0 then now else mtime, []⟩]) ∧
      ((Push content fileinfo mtime now cb reply).2 = .ok ↔ reply.1 = .OKAY) ∧
      (∀ payload, reply = (.FAIL, payload) →
        (Push content fileinfo mtime now cb reply).2 = .pushFailed payload) := by
  obtain ⟨datas, hflat, hprop, hrw⟩ :=
    pushLoop_spec cb content.length content le_rfl 0
  refine ⟨datas, hflat, hprop, ?_, ?_, ?_⟩
  · rcases reply with ⟨id, payload⟩
    cases id <;> simp [Push, hrw]
  · rcases reply with ⟨id, payload⟩
    cases id <;> simp [Push, hrw]
  · intro payload hr
    subst hr
    simp [Push, hrw]

/-- C7 witness: pushing a 3-byte file with `mtime = 0` and an `OKAY`
reply. -/
theorem push_protocol_witness :
    ∃ datas : List (List Nat),
      datas.flatten = [1, 2, 3] ∧
      (∀ d ∈ datas, d ≠ [] ∧ d.length ≤ MAX_PUSH_DATA) ∧
      (Push [1, 2, 3] [102, 111, 111] 0 1700000000 none (.OKAY, [])).1 =
        ⟨.SEND, 3, [102, 111, 111]⟩ ::
          ((datas.map fun d => SentPacket.mk .DATA d.length d) ++
            [⟨.DONE, if (0 : Nat) = 0 then 1700000000 else 0, []⟩]) ∧
      ((Push [1, 2, 3] [102, 111, 111] 0 1700000000 none (.OKAY, [])).2 = .ok ↔
        (FsId.OKAY, ([] : List Nat)).1 = .OKAY) ∧
      (∀ payload, (FsId.OKAY, ([] : List Nat)) = (.FAIL, payload) →
        (Push [1, 2, 3] [102, 111, 111] 0 1700000000 none (.OKAY, [])).2 =
          .pushFailed payload) :=
  push_protocol [1, 2, 3] [102, 111, 111] 0 1700000000 none (.OKAY, [])

section ProgressCongrLemmas

/-- The pull receive loop behaves identically under any two progress
callbacks. -/
theorem PullLoop_cb_congr (f g : Nat → CbRes) :
    ∀ (fuel : Nat) (st : FSState) (current : Nat),
    PullLoop (some f) st current fuel = PullLoop (some g) st current fuel := by
  intro fuel
  induction fuel with
  | zero => intro st current; rfl
  | succ n ih =>
      intro st current
      simp only [PullLoop]
      cases hfs : fsRead 2 [.DATA, .DONE] st with
      | error e => rfl
      | ok v =>
          obtain ⟨id, hdr, data, st'⟩ := v
          by_cases hdone : id = .DONE
          · simp [hdone]
          · simp only [if_neg hdone,
              progressStep_congr f g current data.length,
              progressStep, handleProgressSend_eq]
            rw [ih]

/-- The fastboot bulk-write loop behaves identically under any two
progress callbacks. -/
theorem fbWriteLoop_cb_congr (chunkBytes : Nat) (f g : Nat → CbRes) :
    ∀ (fuel : Nat) (rem : List Nat) (current : Nat),
    fbWriteLoop chunkBytes (some f) fuel rem current =
      fbWriteLoop chunkBytes (some g) fuel rem current := by
  intro fuel
  induction fuel with
  | zero => intro rem current; rfl
  | succ n ih =>
      intro rem current
      simp only [fbWriteLoop]
      by_cases hemp : rem.isEmpty
      · simp [hemp]
      · simp only [if_neg hemp,
          progressStep_congr f g current (rem.take chunkBytes).length,
          progressStep, handleProgressSend_eq]
        rw [ih]

end ProgressCongrLemmas

/-! ## Claim C10 -/

/-- C10: a progress callback that raises cannot abort a transfer.  The
`_HandleProgress` generator catches the exception and resumes (`send`
always returns normally with the advanced byte count), and the outputs of
`FilesyncProtocol.Push`, `FilesyncProtocol.Pull`'s receive loop and
`FastbootProtocol._Write` — the packets/bytes transferred and the final
result — are identical to a run whose callback never raises. -/
theorem progress_callback_cannot_abort :
    (∀ (f : Nat → CbRes) (current delta : Nat),
      handleProgressSend f current delta = .ok (current + delta))
    ∧ (∀ (content fileinfo : List Nat) (mtime now : Nat) (f : Nat → CbRes)
        (reply : FsId × List Nat),
      Push content fileinfo mtime now (some f) reply =
        Push content fileinfo mtime now (some fun _ => .ok) reply)
    ∧ (∀ (f : Nat → CbRes) (fuel : Nat) (st : FSState) (current : Nat),
      PullLoop (some f) st current fuel =
        PullLoop (some fun _ => .ok) st current fuel)
    ∧ (∀ (chunkBytes : Nat) (f : Nat → CbRes) (fuel : Nat) (rem : List Nat)
        (current : Nat),
      fbWriteLoop chunkBytes (some f) fuel rem current =
        fbWriteLoop chunkBytes (some fun _ => .ok) fuel rem current) := by
  refine ⟨handleProgressSend_eq, ?_, ?_, ?_⟩
  · intro content fileinfo mtime now f reply
    simp only [Push]
    rw [pushLoop_cb_congr f (fun _ => .ok) content.length content le_rfl 0]
  · intro f fuel st current
    exact PullLoop_cb_congr f (fun _ => .ok) fuel st current
  · intro chunkBytes f fuel rem current
    exact fbWriteLoop_cb_congr chunkBytes f (fun _ => .ok) fuel rem current

/-! ## Fastboot response loop (`fastboot.py`) -/

/-- ASCII bytes of the fastboot response header `INFO`. -/
def INFOb : List Nat := [0x49, 0x4E, 0x46, 0x4F]

/-- ASCII bytes of the fastboot response header `OKAY`. -/
def OKAYb : List Nat := [0x4F, 0x4B, 0x41, 0x59]

/-- ASCII bytes of the fastboot response header `FAIL`. -/
def FAILb : List Nat := [0x46, 0x41, 0x49, 0x4C]

/-- ASCII bytes of the fastboot response header `DATA`. -/
def DATAb : List Nat := [0x44, 0x41, 0x54, 0x41]

/-- A bulk-read response frame whose first four bytes are `INFO`. -/
def isInfoFrame (r : List Nat) : Bool := r.take 4 = INFOb

/-- Outcome of `FastbootProtocol._AcceptResponses`. -/
inductive FbOutcome where
  /-- The expected terminal header arrived; its remaining 60 bytes. -/
  | ok (remaining : List Nat)
  /-- `FastbootStateMismatch`. -/
  | stateMismatch
  /-- `FastbootRemoteFailure` carrying the `FAIL` message. -/
  | remoteFailure (msg : List Nat)
  /-- `FastbootInvalidResponse`. -/
  | invalidResponse
  /-- The device sent no further response (blocking bulk read). -/
  | blocked
  deriving DecidableEq, Repr

/-- `FastbootProtocol._AcceptResponses`: bulk-read 64-byte frames, split
each into `header = frame[0:4]` and `remaining = frame[4:]`; `INFO`
invokes `info_cb` and continues; `OKAY`/`DATA` (the `FINAL_HEADERS`) must
equal the expected header (else `FastbootStateMismatch`), with `OKAY`
additionally invoking `info_cb`, and return `remaining`; `FAIL` invokes
`info_cb` and raises `FastbootRemoteFailure`; anything else raises
`FastbootInvalidResponse`.  Returns the outcome and the
`FastbootMessage (remaining, header)` arguments passed to `info_cb`, in
order. -/
def acceptResponses (expectedHeader : List Nat) :
    List (List Nat) → FbOutcome × List (List Nat × List Nat)
  | [] => (.blocked, [])
  | r :: rs =>
    let header := r.take 4
    let remaining := r.drop 4
    if header = INFOb then
      let rest := acceptResponses expectedHeader rs
      (rest.1, (remaining, header) :: rest.2)
    else if header = OKAYb ∨ header = DATAb then
      if header ≠ expectedHeader then (.stateMismatch, [])
      else if header = OKAYb then (.ok remaining, [(remaining, header)])
      else (.ok remaining, [])
    else if header = FAILb then (.remoteFailure remaining, [(remaining, header)])
    else (.invalidResponse, [])

/-! ## Claim C8 -/

/-- C8: `INFO` frames are transparent to `_AcceptResponses`: deleting (or
equivalently inserting) any number of `INFO` frames does not change the
outcome — the value returned or the exception raised — and a run of
`INFO` frames ahead of the remaining responses is observable only through
the `info_cb` invocations recorded for it, in order. -/
theorem fastboot_info_transparency :
    (∀ (expectedHeader : List Nat) (rs : List (List Nat)),
      (acceptResponses expectedHeader rs).1 =
        (acceptResponses expectedHeader
          (rs.filter fun r => ! isInfoFrame r)).1)
    ∧ (∀ (expectedHeader : List Nat) (infos rs : List (List Nat)),
      (∀ r ∈ infos, isInfoFrame r) →
      acceptResponses expectedHeader (infos ++ rs) =
        ((acceptResponses expectedHeader rs).1,
          (infos.map fun r => (r.drop 4, r.take 4)) ++
            (acceptResponses expectedHeader rs).2)) := by
  constructor
  · intro expectedHeader rs
    induction rs with
    | nil => rfl
    | cons r rs ih =>
        by_cases hh : r.take 4 = INFOb
        · have hinfo : isInfoFrame r = true := by
            simp [isInfoFrame, hh]
          simp only [acceptResponses, if_pos hh, List.filter_cons, hinfo,
            Bool.not_true]
          exact ih
        · have hinfo : isInfoFrame r = false := by
            simp [isInfoFrame, hh]
          simp only [List.filter_cons, hinfo, Bool.not_false]
          simp only [acceptResponses, if_neg hh]
  · intro expectedHeader infos rs hinfos
    induction infos with
    | nil => simp
    | cons r infos ih =>
        have hr : isInfoFrame r = true := hinfos r (List.mem_cons_self r infos)
        have hh : r.take 4 = INFOb := by
          simpa [isInfoFrame] using hr
        have ih' := ih (fun t ht => hinfos t (List.mem_cons_of_mem r ht))
        simp only [List.cons_append, acceptResponses, if_pos hh,
          List.map_cons, List.append_eq]
        rw [ih']

/-- C8 witness: one `INFO` frame ahead of an `OKAY` reply is skipped, the
return value is the `OKAY` remainder, and the `INFO` payload is recorded
via the info callback. -/
theorem fastboot_info_transparency_witness :
    acceptResponses OKAYb
        ([[0x49, 0x4E, 0x46, 0x4F, 1, 2]] ++ [[0x4F, 0x4B, 0x41, 0x59, 9]]) =
      ((acceptResponses OKAYb [[0x4F, 0x4B, 0x41, 0x59, 9]]).1,
        ([[0x49, 0x4E, 0x46, 0x4F, 1, 2]].map fun r => (r.drop 4, r.take 4)) ++
          (acceptResponses OKAYb [[0x4F, 0x4B, 0x41, 0x59, 9]]).2) :=
  fastboot_info_transparency.2 OKAYb [[0x49, 0x4E, 0x46, 0x4F, 1, 2]]
    [[0x4F, 0x4B, 0x41, 0x59, 9]] (by decide)

/-! ## `find_backspace_runs` (`adb_protocol.py`) -/

/-- The `while True` scan of `find_backspace_runs`: advance
`end_backspace_pos` while the byte there is a backspace; exit at the
first non-backspace byte.  Indexing past the end of the string raises
`IndexError`, modelled as `none`. -/
def bsLoop (bytes : List Nat) (pos : Nat) : Option Nat :=
  if h : pos < bytes.length then
    if bytes[pos] = 8 then bsLoop bytes (pos + 1) else some pos
  else none
termination_by bytes.length - pos

/-- `find_backspace_runs(stdout_bytes, start_pos)`: find the first
backspace (`0x08`) at or after `start_pos` — `(-1, 0)` when there is
none — then scan forward from the byte after it and return the absolute
position of the first backspace together with the length of the
contiguous run.  `none` models the `IndexError` raised by the scan when
the run reaches the end of the string. -/
def find_backspace_runs (stdout_bytes : List Nat) (start_pos : Nat) :
    Option (Int × Nat) :=
  match (stdout_bytes.drop start_pos).findIdx? (fun b => b = 8) with
  | none => some (-1, 0)
  | some fp =>
    match bsLoop stdout_bytes (start_pos + fp + 1) with
    | none => none
    | some endPos => some ((start_pos + fp : Nat), endPos - (start_pos + fp))

/-! ## Claim C9 -/

/-- C9: `find_backspace_runs` is *not* total — when the backspace run
reaches the end of the string the scan indexes one past the end and
raises `IndexError` (here `none`), e.g. on `b'\x08'` at start position
`0`; the claimed `(0, 1)` answer is returned only when a non-backspace
byte follows the run, as on `b'\x08A'`. -/
theorem find_backspace_runs_crashes :
    find_backspace_runs [8] 0 = none
    ∧ find_backspace_runs [8, 65] 0 = some (0, 1)
    ∧ find_backspace_runs [65] 0 = some (-1, 0) := by
  refine ⟨?_, ?_, ?_⟩
  · rw [find_backspace_runs]
    norm_num [List.findIdx?]
    rw [bsLoop]
    norm_num
  · rw [find_backspace_runs]
    norm_num [List.findIdx?]
    rw [bsLoop]
    norm_num
  · rw [find_backspace_runs]
    norm_num [List.findIdx?]

end PyAdb
